import Mathlib

/-!
Verification of the OPL Manager image-converter core
(`src/v_2/opl_image_converter.py`, class `ImageProcessor`).

Shallow embedding notes:
* A decoded PIL image is modelled as `Img`: width, height, mode and a total
  pixel function. PIL's `Image.resize(..., LANCZOS)` is modelled by an
  abstract `Resampler` parameter supplying the pixel content of the resized
  image; its output dimensions are exactly the requested ones (a PIL
  guarantee). Theorems quantify over every resampler.
* Python float division in the aspect-ratio arithmetic is modelled as exact
  rational arithmetic over `ℚ`; Python `int()` truncates toward zero, which
  on the nonnegative values arising here equals `Int.floor`.
* Python's `//` floor division on integers is `Int.fdiv`.
* Exceptions raised by the environment (`Image.open`, `img.save`) are
  modelled as inputs: `opened : Except String Img` is the outcome of
  `Image.open`, `writeErr : Option String` the outcome of `img.save`.
  A `ZeroDivisionError` from `img_width / img_height` is modelled by the
  explicit zero-height test in `convert_resize_image`.
* The filesystem visible to `os.path.exists` is a list of paths; a
  successful save adds the written path to it.
-/

namespace OPLConverter

/-- An RGB pixel value, three channels. -/
abbrev RGB := Nat × Nat × Nat

/-- Model of a decoded in-memory image (PIL `Image`): dimensions, mode tag
and a total pixel function. -/
structure Img where
  width : Nat
  height : Nat
  mode : String
  pixel : Nat → Nat → RGB

/-- Abstract model of PIL's LANCZOS resampling: given the source image and
the requested dimensions, the pixel content of the resized image. -/
abbrev Resampler := Img → Nat → Nat → Nat → Nat → RGB

/-- `img.convert('RGB')`: dimensions are preserved, the mode becomes RGB
(alpha/palette data is dropped, which no theorem here depends on). -/
def Img.convertRGB (img : Img) : Img :=
  { img with mode := "RGB" }

/-- `img.resize((nw, nh), Image.LANCZOS)`: the result has exactly the
requested dimensions, content given by the resampler. -/
def Img.resize (img : Img) (resample : Resampler) (nw nh : Nat) : Img :=
  { width := nw, height := nh, mode := img.mode, pixel := resample img nw nh }

/-- `Image.new('RGB', (w, h), color)`: a constant-color canvas. -/
def Img.newRGB (w h : Nat) (color : RGB) : Img :=
  ⟨w, h, "RGB", fun _ _ => color⟩

/-- `base.paste(src, (left, top))`: opaque overwrite of the rectangle
`[left, left+src.width) × [top, top+src.height)`, no blending. -/
def Img.paste (base src : Img) (left top : Int) : Img :=
  { base with pixel := fun x y =>
      if left ≤ (x : Int) ∧ (x : Int) < left + src.width ∧
          top ≤ (y : Int) ∧ (y : Int) < top + src.height then
        src.pixel ((x : Int) - left).toNat ((y : Int) - top).toNat
      else
        base.pixel x y }

/-- The fixed dimension table `ImageProcessor.DIMENSIONS`. -/
def DIMENSIONS : List (String × (Nat × Nat)) :=
  [("caratula", (140, 200)),
   ("borde", (18, 240)),
   ("contracaratula", (242, 344)),
   ("captura", (250, 168)),
   ("fondo", (640, 480)),
   ("disco", (128, 128)),
   ("logo", (300, 125))]

/-- `ImageProcessor.DIMENSIONS.get(image_type, (0, 0))`. -/
def dimsGet (image_type : String) : Nat × Nat :=
  (DIMENSIONS.lookup image_type).getD (0, 0)

/-- The allow-list `ImageProcessor.SUPPORTED_FORMATS`. -/
def SUPPORTED_FORMATS : List String :=
  [".jpg", ".jpeg", ".png", ".bmp", ".webp", ".tiff", ".gif"]

/-- Characters after the last path separator (`os.path.basename`). -/
def afterLastSep (l : List Char) : List Char :=
  l.foldl (fun acc c => if c = '/' then [] else acc.concat c) []

/-- Drop the leading dots of a basename; `os.path.splitext` never treats a
leading dot as an extension separator. -/
def dropLeadingDots : List Char → List Char
  | [] => []
  | c :: rest => if c = '.' then dropLeadingDots rest else c :: rest

/-- The suffix starting at the last `'.'` of the list, `[]` if none. -/
def extAfterLastDot : List Char → List Char
  | [] => []
  | c :: rest =>
    let e := extAfterLastDot rest
    if e.isEmpty then (if c = '.' then c :: rest else []) else e

/-- `os.path.splitext(p)[1]`: the extension of the basename, including its
dot, empty when the basename has no extension. -/
def os_splitext_ext (p : String) : String :=
  ⟨extAfterLastDot (dropLeadingDots (afterLastSep p.data))⟩

/-- `os.path.splitext(os.path.basename(p))[0]`: the stem used as
`base_name` in `batch_process`. -/
def stemOf (p : String) : String :=
  let b := afterLastSep p.data
  let e := extAfterLastDot (dropLeadingDots b)
  ⟨b.take (b.length - e.length)⟩

/-- Python's `str.lower()`, character by character. `Char.toLower` covers
the ASCII range, which covers every extension in the allow-list. -/
def lowerStr (s : String) : String :=
  ⟨s.data.map Char.toLower⟩

/-- `ImageProcessor.is_supported_format`: lowercase the extension and test
membership in the allow-list. -/
def is_supported_format (file_path : String) : Bool :=
  SUPPORTED_FORMATS.contains (lowerStr (os_splitext_ext file_path))

/-- The scaled dimensions of the maintain-aspect branch (lines 52-63 of the
source): Python float division is exact rational division here, and `int()`
on these nonnegative quotients is `Int.floor`. -/
def scaledDims (sw sh tw th : Nat) : Nat × Nat :=
  let aspect_rat : ℚ := (sw : ℚ) / (sh : ℚ)
  let target_rat : ℚ := (tw : ℚ) / (th : ℚ)
  if aspect_rat > target_rat then
    (tw, (⌊(tw : ℚ) / aspect_rat⌋).toNat)
  else
    ((⌊(th : ℚ) * aspect_rat⌋).toNat, th)

/-- The centering offsets (lines 72-73): Python `//` is floor division. -/
def pasteOffsets (tw th nw nh : Nat) : Int × Int :=
  (((tw : Int) - (nw : Int)).fdiv 2, ((th : Int) - (nh : Int)).fdiv 2)

/-- `ImageProcessor.convert_resize_image`. Returns the Python pair
`(success, message-or-output-path)` together with the image written to
`output_path` (`none` when nothing was written). -/
def convert_resize_image (resample : Resampler) (opened : Except String Img)
    (writeErr : Option String) (output_path : String) (image_type : String)
    (maintain_aspect : Bool) : (Bool × String) × Option Img :=
  match opened with
  | .error e => ((false, e), none)
  | .ok img0 =>
    let img := if img0.mode ≠ "RGB" then img0.convertRGB else img0
    let target_width := (dimsGet image_type).1
    let target_height := (dimsGet image_type).2
    if target_width = 0 ∨ target_height = 0 then
      ((false, "Tipo de imagen no válido: " ++ image_type), none)
    else if maintain_aspect then
      if img.height = 0 then
        -- `aspect_ratio = img_width / img_height` raises ZeroDivisionError,
        -- caught by the enclosing `except`.
        ((false, "division by zero"), none)
      else
        let nd := scaledDims img.width img.height target_width target_height
        let resized := img.resize resample nd.1 nd.2
        let off := pasteOffsets target_width target_height nd.1 nd.2
        let new_img := (Img.newRGB target_width target_height (0, 0, 0)).paste resized off.1 off.2
        match writeErr with
        | some e => ((false, e), none)
        | none => ((true, output_path), some new_img)
    else
      let out := img.resize resample target_width target_height
      match writeErr with
      | some e => ((false, e), none)
      | none => ((true, output_path), some out)

/-- Decimal digit character, model of the digits of Python's `str(int)`. -/
def digitChar (d : Nat) : Char :=
  Char.ofNat (48 + d)

/-- Fuel-driven decimal conversion; most significant digit first. -/
def decimalAux : Nat → Nat → List Char
  | 0, _ => []
  | fuel + 1, n =>
    if n < 10 then [digitChar n]
    else decimalAux fuel (n / 10) ++ [digitChar (n % 10)]

/-- Model of Python's `str(counter)` inside the f-string: the standard
decimal representation, no leading zeros. -/
def decimal (n : Nat) : String :=
  ⟨decimalAux (n + 1) n⟩

/-- `os.path.join(dir, name)` for a plain directory and relative name. -/
def joinPath (dir name : String) : String :=
  dir ++ "/" ++ name

/-- The k-th candidate file name tried by the collision loop of
`batch_process`: `f"{base_name}_{image_type}.png"` first, then
`f"{base_name}_{image_type}_{counter}.png"` for counter 1, 2, ... -/
def candidateName (base_name image_type : String) (k : Nat) : String :=
  if k = 0 then base_name ++ "_" ++ image_type ++ ".png"
  else base_name ++ "_" ++ image_type ++ "_" ++ decimal k ++ ".png"

/-- The `while os.path.exists(output_path)` loop, fuel-bounded; the fuel
`fs.length + 1` given by `resolveOutput` always suffices because the
candidate names are pairwise distinct. -/
def resolveLoop (fs : List String) (dir base_name image_type : String) :
    Nat → Nat → String
  | 0, k => joinPath dir (candidateName base_name image_type k)
  | fuel + 1, k =>
    let c := joinPath dir (candidateName base_name image_type k)
    if fs.contains c then resolveLoop fs dir base_name image_type fuel (k + 1)
    else c

/-- Output-path resolution of `batch_process` (lines 99-109). -/
def resolveOutput (fs : List String) (dir base_name image_type : String) : String :=
  resolveLoop fs dir base_name image_type (fs.length + 1) 0

/-- One input of a batch: its path plus the environment's response to
decoding it and to writing its output. -/
structure BatchInput where
  path : String
  opened : Except String Img
  writeErr : Option String

/-- `ImageProcessor.batch_process`: returns the Python `results` list of
`(input_file, success, message-or-output-path)` triples and the final
filesystem state. A successful save adds the written path to the
filesystem; the progress callback is a pure side channel and is omitted. -/
def batch_process (resample : Resampler) (inputs : List BatchInput)
    (output_dir image_type : String) (maintain_aspect : Bool)
    (fs : List String) : List (String × Bool × String) × List String :=
  match inputs with
  | [] => ([], fs)
  | f :: rest =>
    if is_supported_format f.path then
      let base_name := stemOf f.path
      let output_path := resolveOutput fs output_dir base_name image_type
      let r := convert_resize_image resample f.opened f.writeErr output_path
        image_type maintain_aspect
      let success := r.1.1
      let message := r.1.2
      let fs1 := if success then output_path :: fs else fs
      let rec_result := batch_process resample rest output_dir image_type maintain_aspect fs1
      ((f.path, success, if success then output_path else message) :: rec_result.1,
        rec_result.2)
    else
      let rec_result := batch_process resample rest output_dir image_type maintain_aspect fs
      ((f.path, false, "Formato no soportado") :: rec_result.1, rec_result.2)

/-- A trivial concrete resampler, used by the closed witness instances. -/
def rs0 : Resampler := fun _ _ _ _ _ => (0, 0, 0)

/-- A concrete 1-by-1 RGB image, used by the closed witness instances. -/
def img1 : Img := ⟨1, 1, "RGB", fun _ _ => (0, 0, 0)⟩

lemma dimsGet_eq_of_lookup {t : String} {p : Nat × Nat}
    (h : DIMENSIONS.lookup t = some p) : dimsGet t = p := by
  simp [dimsGet, h]

lemma lookup_pos {t : String} {p : Nat × Nat}
    (h : DIMENSIONS.lookup t = some p) : 0 < p.1 ∧ 0 < p.2 := by
  simp only [DIMENSIONS, List.lookup] at h
  repeat' split at h
  all_goals simp_all
  all_goals (cases h; exact ⟨by decide, by decide⟩)

/-- C10: the validity test of convert_resize_image (table lookup with
default (0, 0), rejecting when either dimension is zero) accepts an asset
type exactly when it is a key of the table; every entry of the fixed table
has strictly positive dimensions. -/
theorem accepted_iff_key_C10 (t : String) :
    (¬((dimsGet t).1 = 0 ∨ (dimsGet t).2 = 0) ↔ (DIMENSIONS.lookup t).isSome = true)
    ∧ (∀ p ∈ DIMENSIONS, 0 < p.2.1 ∧ 0 < p.2.2) := by
  constructor
  · constructor
    · intro h
      by_contra hn
      rw [Option.not_isSome_iff_eq_none] at hn
      simp [dimsGet, hn] at h
    · intro h
      obtain ⟨p, hp⟩ := Option.isSome_iff_exists.mp h
      have hpos := lookup_pos hp
      rw [dimsGet_eq_of_lookup hp]
      omega
  · decide

/-- C6: is_supported_format decides support purely from the file name: it
returns true exactly when the lowercased extension is one of the seven
allow-listed ones; a non-matching extension yields false, not an error. -/
theorem is_supported_iff_C6 (p : String) :
    (is_supported_format p = true ↔
      ∃ e ∈ ["jpg", "jpeg", "png", "bmp", "webp", "tiff", "gif"],
        lowerStr (os_splitext_ext p) = "." ++ e)
    ∧ is_supported_format "cover.JPG" = true
    ∧ is_supported_format "notes.txt" = false
    ∧ is_supported_format "img.svg" = false := by
  refine ⟨?_, by decide, by decide, by decide⟩
  simp only [is_supported_format, SUPPORTED_FORMATS, List.elem_iff,
    List.mem_cons, List.not_mem_nil, or_false, List.mem_singleton]
  constructor
  · rintro (h | h | h | h | h | h | h) <;>
      [exact ⟨"jpg", by simp, by rw [h]; rfl⟩;
       exact ⟨"jpeg", by simp, by rw [h]; rfl⟩;
       exact ⟨"png", by simp, by rw [h]; rfl⟩;
       exact ⟨"bmp", by simp, by rw [h]; rfl⟩;
       exact ⟨"webp", by simp, by rw [h]; rfl⟩;
       exact ⟨"tiff", by simp, by rw [h]; rfl⟩;
       exact ⟨"gif", by simp, by rw [h]; rfl⟩]
  · rintro ⟨e, he, h⟩
    rcases he with rfl | rfl | rfl | rfl | rfl | rfl | rfl <;> simp [h]

lemma convert_written_dims {resample : Resampler} {opened : Except String Img}
    {writeErr : Option String} {out_path t : String} {ma : Bool} {out : Img}
    (h : (convert_resize_image resample opened writeErr out_path t ma).2 = some out) :
    out.width = (dimsGet t).1 ∧ out.height = (dimsGet t).2 := by
  cases opened with
  | error e => simp [convert_resize_image] at h
  | ok img0 =>
    cases writeErr <;> cases ma <;>
      simp only [convert_resize_image] at h <;>
      split_ifs at h <;>
      simp_all <;>
      (obtain rfl := h; exact ⟨rfl, rfl⟩)

lemma convert_success_some {resample : Resampler} {opened : Except String Img}
    {writeErr : Option String} {out_path t : String} {ma : Bool}
    (hsucc : (convert_resize_image resample opened writeErr out_path t ma).1.1 = true) :
    ∃ out, (convert_resize_image resample opened writeErr out_path t ma).2 = some out := by
  cases opened with
  | error e => simp [convert_resize_image] at hsucc
  | ok img0 =>
    cases writeErr <;> cases ma <;>
      simp only [convert_resize_image] at hsucc ⊢ <;>
      split_ifs at hsucc ⊢ <;>
      simp_all

/-- C1: for every decoded input and every asset type present in the
dimension table, a Success outcome of convert_resize_image means the
written image has exactly the table dimensions, for both maintain_aspect
settings and every input aspect ratio. -/
theorem convert_success_dims_C1 (resample : Resampler) (opened : Except String Img)
    (writeErr : Option String) (out_path t : String) (ma : Bool) (tw th : Nat)
    (hlook : DIMENSIONS.lookup t = some (tw, th))
    (hsucc : (convert_resize_image resample opened writeErr out_path t ma).1.1 = true) :
    ∃ out, (convert_resize_image resample opened writeErr out_path t ma).2 = some out
      ∧ out.width = tw ∧ out.height = th := by
  obtain ⟨out, hout⟩ := convert_success_some hsucc
  have hdims := convert_written_dims hout
  rw [dimsGet_eq_of_lookup hlook] at hdims
  exact ⟨out, hout, hdims⟩

/-- C1 witness: a concrete successful conversion to caratula dimensions. -/
theorem convert_success_dims_C1_witness :
    ∃ out, (convert_resize_image rs0 (Except.ok img1) none "o.png" "caratula" false).2
        = some out ∧ out.width = 140 ∧ out.height = 200 :=
  convert_success_dims_C1 rs0 (Except.ok img1) none "o.png" "caratula" false 140 200
    (by decide) (by decide)

end OPLConverter

namespace OPLConverter

/-- The value of a decimal digit string, inverse of the decimal conversion. -/
def digitsVal (l : List Char) : Nat :=
  l.foldl (fun a c => 10 * a + (c.toNat - 48)) 0

lemma digitsVal_append_digit (l : List Char) (c : Char) :
    digitsVal (l ++ [c]) = 10 * digitsVal l + (c.toNat - 48) := by
  simp [digitsVal, List.foldl_append]

lemma digitChar_toNat {d : Nat} (h : d < 10) : (digitChar d).toNat = 48 + d := by
  interval_cases d <;> decide

lemma decimalAux_val : ∀ fuel n, n < 10 ^ fuel → digitsVal (decimalAux fuel n) = n := by
  intro fuel
  induction fuel with
  | zero =>
    intro n h
    have hn : n = 0 := by simpa using h
    subst hn
    rfl
  | succ f ih =>
    intro n h
    by_cases h10 : n < 10
    · rw [decimalAux, if_pos h10]
      have := digitChar_toNat h10
      simp [digitsVal, this]
    · rw [decimalAux, if_neg h10, digitsVal_append_digit]
      have hdiv : n / 10 < 10 ^ f := by
        rw [Nat.div_lt_iff_lt_mul (by norm_num)]
        calc n < 10 ^ (f + 1) := h
          _ = 10 ^ f * 10 := by ring
      rw [ih (n / 10) hdiv, digitChar_toNat (Nat.mod_lt n (by norm_num))]
      omega

lemma decimal_val (n : Nat) : digitsVal (decimal n).data = n := by
  have h : n < 10 ^ (n + 1) :=
    lt_of_lt_of_le (Nat.lt_pow_self (by norm_num) n)
      (Nat.pow_le_pow_right (by norm_num) (Nat.le_succ n))
  exact decimalAux_val (n + 1) n h

lemma decimal_inj : Function.Injective decimal := by
  intro m n h
  have h2 := congrArg (fun s => digitsVal s.data) h
  simpa [decimal_val] using h2

lemma data_append (s t : String) : (s ++ t).data = s.data ++ t.data := rfl

lemma candidateName_inj (b t : String) : Function.Injective (candidateName b t) := by
  intro k j h
  by_cases hk : k = 0 <;> by_cases hj : j = 0
  · omega
  · exfalso
    rw [candidateName, candidateName, if_pos hk, if_neg hj] at h
    have hd := congrArg String.data h
    simp only [data_append, List.append_assoc] at hd
    have hd2 := List.append_cancel_left (List.append_cancel_left hd)
    have hd3 := List.append_cancel_left hd2
    simp at hd3
  · exfalso
    rw [candidateName, candidateName, if_neg hk, if_pos hj] at h
    have hd := congrArg String.data h
    simp only [data_append, List.append_assoc] at hd
    have hd2 := List.append_cancel_left (List.append_cancel_left hd)
    have hd3 := List.append_cancel_left hd2
    simp at hd3
  · rw [candidateName, candidateName, if_neg hk, if_neg hj] at h
    have hd := congrArg String.data h
    simp only [data_append, List.append_assoc] at hd
    have hd2 := List.append_cancel_left (List.append_cancel_left
      (List.append_cancel_left hd))
    have hd2b := List.append_cancel_left hd2
    have hd3 : (decimal k).data = (decimal j).data := List.append_cancel_right hd2b
    exact decimal_inj (String.ext hd3)

lemma joinCandidate_inj (dir b t : String) :
    Function.Injective (fun k => joinPath dir (candidateName b t k)) := by
  intro k j h
  simp only [joinPath] at h
  have hd := congrArg String.data h
  simp only [data_append, List.append_assoc] at hd
  have hd2 := List.append_cancel_left (List.append_cancel_left hd)
  exact candidateName_inj b t (String.ext hd2)

lemma exists_unused (fs : List String) (dir b t : String) :
    ∃ m, m ≤ fs.length ∧ joinPath dir (candidateName b t m) ∉ fs := by
  by_contra hno
  push_neg at hno
  have hsub : (Finset.range (fs.length + 1)).image
      (fun k => joinPath dir (candidateName b t k)) ⊆ fs.toFinset := by
    intro s hs
    rw [Finset.mem_image] at hs
    obtain ⟨k, hk, rfl⟩ := hs
    rw [Finset.mem_range] at hk
    rw [List.mem_toFinset]
    exact hno k (by omega)
  have hcard := Finset.card_le_card hsub
  rw [Finset.card_image_of_injective _ (joinCandidate_inj dir b t),
    Finset.card_range] at hcard
  have hlen := List.toFinset_card_le fs
  omega

lemma resolveLoop_least (fs : List String) (dir b t : String) :
    ∀ fuel k, (∃ m, m < fuel ∧ joinPath dir (candidateName b t (k + m)) ∉ fs) →
    ∃ m, resolveLoop fs dir b t fuel k = joinPath dir (candidateName b t (k + m))
      ∧ joinPath dir (candidateName b t (k + m)) ∉ fs
      ∧ ∀ j, j < m → joinPath dir (candidateName b t (k + j)) ∈ fs := by
  intro fuel
  induction fuel with
  | zero =>
    rintro k ⟨m, hm, _⟩
    omega
  | succ f ih =>
    rintro k ⟨m, hm, hnm⟩
    by_cases hc : fs.contains (joinPath dir (candidateName b t k)) = true
    · have hmem : joinPath dir (candidateName b t k) ∈ fs := List.elem_iff.mp hc
      have hm0 : m ≠ 0 := by
        intro h0
        subst h0
        exact hnm hmem
      obtain ⟨m3, e1, e2, e3⟩ := ih (k + 1)
        ⟨m - 1, by omega, by
          have : k + 1 + (m - 1) = k + m := by omega
          rw [this]
          exact hnm⟩
      rw [resolveLoop, if_pos hc]
      refine ⟨m3 + 1, ?_, ?_, ?_⟩
      · rw [show k + (m3 + 1) = k + 1 + m3 by omega]
        exact e1
      · rw [show k + (m3 + 1) = k + 1 + m3 by omega]
        exact e2
      · intro j hj
        cases j with
        | zero => simpa using hmem
        | succ j2 =>
          rw [show k + (j2 + 1) = k + 1 + j2 by omega]
          exact e3 j2 (by omega)
    · have hmem : joinPath dir (candidateName b t k) ∉ fs := by
        intro hin
        exact hc (List.elem_iff.mpr hin)
      rw [resolveLoop, if_neg hc]
      exact ⟨0, by rw [Nat.add_zero], by rw [Nat.add_zero]; exact hmem,
        fun j hj => absurd hj (by omega)⟩

/-- C3: the collision loop returns the candidate with the lowest unused
counter as checked against the filesystem state, and three same-stem
photo.png inputs converted into one directory receive the suffixes
photo_caratula.png, photo_caratula_1.png, photo_caratula_2.png. -/
theorem output_naming_C3 (fs : List String) (dir base t : String) :
    (∃ k, resolveOutput fs dir base t = joinPath dir (candidateName base t k)
      ∧ joinPath dir (candidateName base t k) ∉ fs
      ∧ ∀ j, j < k → joinPath dir (candidateName base t j) ∈ fs)
    ∧ ((batch_process rs0 [⟨"a/photo.png", Except.ok img1, none⟩,
          ⟨"b/photo.png", Except.ok img1, none⟩,
          ⟨"c/photo.png", Except.ok img1, none⟩] "out" "caratula" false []).1.map
          (fun r => r.2.2)
        = ["out/photo_caratula.png", "out/photo_caratula_1.png",
           "out/photo_caratula_2.png"]) := by
  constructor
  · obtain ⟨m, hm, hnm⟩ := exists_unused fs dir base t
    obtain ⟨k, h1, h2, h3⟩ := resolveLoop_least fs dir base t (fs.length + 1) 0
      ⟨m, by omega, by simpa using hnm⟩
    exact ⟨k, by simpa using h1, by simpa using h2,
      fun j hj => by simpa using h3 j hj⟩
  · decide

end OPLConverter

namespace OPLConverter

/-- A concrete zero-height image, used by the C5 witness. -/
def img0h : Img := ⟨5, 0, "RGB", fun _ _ => (0, 0, 0)⟩

/-- C5: convert_resize_image is total over all environments: an asset type
that is not a key of the table yields the InvalidAssetType failure, a
decode fault yields a Failure carrying its message, a write fault yields a
Failure, and the zero-height processing fault yields a Failure; no case
raises. -/
theorem convert_failure_modes_C5 (resample : Resampler) (opened : Except String Img)
    (writeErr : Option String) (out_path t : String) (ma : Bool) :
    (DIMENSIONS.lookup t = none → ∀ img0, opened = Except.ok img0 →
      convert_resize_image resample opened writeErr out_path t ma
        = ((false, "Tipo de imagen no válido: " ++ t), none))
    ∧ (∀ e, opened = Except.error e →
      convert_resize_image resample opened writeErr out_path t ma = ((false, e), none))
    ∧ (∀ e, writeErr = some e →
      (convert_resize_image resample opened writeErr out_path t ma).1.1 = false)
    ∧ (∀ img0, opened = Except.ok img0 → ma = true → img0.height = 0 →
      (convert_resize_image resample opened writeErr out_path t ma).1.1 = false) := by
  refine ⟨?_, ?_, ?_, ?_⟩
  · rintro hnone img0 rfl
    have hd : dimsGet t = (0, 0) := by simp [dimsGet, hnone]
    simp [convert_resize_image, hd]
  · rintro e rfl
    rfl
  · rintro e rfl
    cases opened with
    | error e2 => rfl
    | ok img0 =>
      cases ma <;>
        simp only [convert_resize_image] <;>
        split_ifs <;>
        rfl
  · rintro img0 rfl rfl hh
    have hh2 : (if img0.mode ≠ "RGB" then img0.convertRGB else img0).height = 0 := by
      split <;> exact hh
    simp only [convert_resize_image]
    split_ifs <;> simp_all [Img.convertRGB]

/-- C5 witness: the four failure modes at concrete inputs. -/
theorem convert_failure_modes_C5_witness :
    convert_resize_image rs0 (Except.ok img1) none "o.png" "tapa" true
      = ((false, "Tipo de imagen no válido: " ++ "tapa"), none)
    ∧ convert_resize_image rs0 (Except.error "boom") none "o.png" "caratula" true
      = ((false, "boom"), none)
    ∧ (convert_resize_image rs0 (Except.ok img1) (some "disk full") "o.png"
        "caratula" false).1.1 = false
    ∧ (convert_resize_image rs0 (Except.ok img0h) none "o.png"
        "caratula" true).1.1 = false :=
  ⟨(convert_failure_modes_C5 rs0 (Except.ok img1) none "o.png" "tapa" true).1
      (by decide) img1 rfl,
   (convert_failure_modes_C5 rs0 (Except.error "boom") none "o.png" "caratula" true).2.1
      "boom" rfl,
   (convert_failure_modes_C5 rs0 (Except.ok img1) (some "disk full") "o.png"
      "caratula" false).2.2.1 "disk full" rfl,
   (convert_failure_modes_C5 rs0 (Except.ok img0h) none "o.png"
      "caratula" true).2.2.2 img0h rfl rfl rfl⟩

/-- C7: an input rejected by the format gate is recorded as the
UnsupportedFormat failure, the filesystem is untouched and the rest of the
batch proceeds unchanged; the equation holds for every decode and write
environment of that input, so no decode is attempted. -/
theorem batch_unsupported_C7 (resample : Resampler) (p : String)
    (opened : Except String Img) (we : Option String) (rest : List BatchInput)
    (dir t : String) (ma : Bool) (fs : List String)
    (hun : is_supported_format p = false) :
    batch_process resample (⟨p, opened, we⟩ :: rest) dir t ma fs
      = ((p, false, "Formato no soportado")
          :: (batch_process resample rest dir t ma fs).1,
         (batch_process resample rest dir t ma fs).2) := by
  simp [batch_process, hun]

/-- C7 witness: a .txt input is short-circuited. -/
theorem batch_unsupported_C7_witness :
    batch_process rs0 [⟨"notes.txt", Except.ok img1, none⟩] "out" "caratula" true []
      = ([("notes.txt", false, "Formato no soportado")], []) := by
  rw [batch_unsupported_C7 rs0 "notes.txt" (Except.ok img1) none [] "out" "caratula"
    true [] (by decide)]
  rfl

lemma batch_paths (resample : Resampler) (inputs : List BatchInput)
    (dir t : String) (ma : Bool) :
    ∀ fs, ((batch_process resample inputs dir t ma fs).1.map (fun r => r.1))
      = inputs.map (fun f => f.path) := by
  induction inputs with
  | nil => intro fs; rfl
  | cons f rest ih =>
    intro fs
    by_cases h : is_supported_format f.path = true
    · simp [batch_process, h, ih]
    · rw [Bool.not_eq_true] at h
      simp [batch_process, h, ih]

/-- C8: batch_process returns exactly one outcome per input, in input
order, and a failing head input leaves the remaining inputs processed
exactly as they would be without it. -/
theorem batch_one_outcome_per_input_C8 (resample : Resampler)
    (inputs : List BatchInput) (dir t : String) (ma : Bool) (fs : List String) :
    ((batch_process resample inputs dir t ma fs).1.map (fun r => r.1)
      = inputs.map (fun f => f.path))
    ∧ (∀ f rest, inputs = f :: rest →
        (batch_process resample inputs dir t ma fs).1.headI.2.1 = false →
        (batch_process resample inputs dir t ma fs).1.tail
          = (batch_process resample rest dir t ma fs).1) := by
  refine ⟨batch_paths resample inputs dir t ma fs, ?_⟩
  rintro f rest rfl hfail
  by_cases hs : is_supported_format f.path = true
  · simp only [batch_process, hs, if_true] at hfail ⊢
    cases hr : (convert_resize_image resample f.opened f.writeErr
        (resolveOutput fs dir (stemOf f.path) t) t ma).1.1
    · simp [hr]
    · simp [hr] at hfail
  · rw [Bool.not_eq_true] at hs
    simp [batch_process, hs]

/-- C8 witness: a failing single input still yields one ordered outcome. -/
theorem batch_one_outcome_per_input_C8_witness :
    ((batch_process rs0 [⟨"notes.txt", Except.ok img1, none⟩] "out" "caratula"
        true []).1.map (fun r => r.1) = ["notes.txt"])
    ∧ (batch_process rs0 [⟨"notes.txt", Except.ok img1, none⟩] "out" "caratula"
        true []).1.tail = [] := by
  obtain ⟨h1, h2⟩ := batch_one_outcome_per_input_C8 rs0
    [⟨"notes.txt", Except.ok img1, none⟩] "out" "caratula" true []
  exact ⟨h1, h2 ⟨"notes.txt", Except.ok img1, none⟩ [] rfl (by decide)⟩

lemma scaledDims_le (sw sh tw th : Nat) (htw : 0 < tw) (hth : 0 < th) :
    (scaledDims sw sh tw th).1 ≤ tw ∧ (scaledDims sw sh tw th).2 ≤ th := by
  have hthq : (0:ℚ) < th := by exact_mod_cast hth
  have htwq : (0:ℚ) < tw := by exact_mod_cast htw
  simp only [scaledDims]
  split_ifs with hbr
  · refine ⟨le_refl tw, ?_⟩
    rw [gt_iff_lt] at hbr
    have ha : (0:ℚ) < (sw:ℚ)/(sh:ℚ) := lt_trans (by positivity) hbr
    have h1 : (tw:ℚ) / ((sw:ℚ)/(sh:ℚ)) < (th:ℚ) := by
      rw [div_lt_iff₀ ha]
      have h2 := (div_lt_iff₀ hthq).mp hbr
      linarith
    have h3 : ⌊(tw:ℚ) / ((sw:ℚ)/(sh:ℚ))⌋ < (th:ℤ) := by
      rw [Int.floor_lt]
      exact_mod_cast h1
    rw [Int.toNat_le]
    exact_mod_cast le_of_lt h3
  · refine ⟨?_, le_refl th⟩
    rw [gt_iff_lt, not_lt] at hbr
    have h1 : (th:ℚ) * ((sw:ℚ)/(sh:ℚ)) ≤ (tw:ℚ) := by
      calc (th:ℚ) * ((sw:ℚ)/(sh:ℚ)) ≤ (th:ℚ) * ((tw:ℚ)/(th:ℚ)) :=
            mul_le_mul_of_nonneg_left hbr (le_of_lt hthq)
        _ = tw := by field_simp
    have h2 : ⌊(th:ℚ) * ((sw:ℚ)/(sh:ℚ))⌋ ≤ (tw:ℤ) := by
      calc ⌊(th:ℚ) * ((sw:ℚ)/(sh:ℚ))⌋ ≤ ⌊(tw:ℚ)⌋ := Int.floor_le_floor h1
        _ = (tw:ℤ) := Int.floor_natCast tw
    rw [Int.toNat_le]
    exact h2

lemma pasteOffsets_bounds {tw th nw nh : Nat} (h1 : nw ≤ tw) (h2 : nh ≤ th) :
    0 ≤ (pasteOffsets tw th nw nh).1 ∧ 0 ≤ (pasteOffsets tw th nw nh).2
    ∧ (pasteOffsets tw th nw nh).1 + (nw:ℤ) ≤ (tw:ℤ)
    ∧ (pasteOffsets tw th nw nh).2 + (nh:ℤ) ≤ (th:ℤ) := by
  simp only [pasteOffsets]
  have a1 : (0:ℤ) ≤ (tw:ℤ) - (nw:ℤ) := by omega
  have a2 : (0:ℤ) ≤ (th:ℤ) - (nh:ℤ) := by omega
  have b1 : ((tw:ℤ) - (nw:ℤ)).fdiv 2 ≤ (tw:ℤ) - (nw:ℤ) := by
    rw [Int.fdiv_eq_ediv _ (by norm_num)]
    exact Int.ediv_le_self 2 a1
  have b2 : ((th:ℤ) - (nh:ℤ)).fdiv 2 ≤ (th:ℤ) - (nh:ℤ) := by
    rw [Int.fdiv_eq_ediv _ (by norm_num)]
    exact Int.ediv_le_self 2 a2
  exact ⟨Int.fdiv_nonneg a1 (by norm_num), Int.fdiv_nonneg a2 (by norm_num),
    by omega, by omega⟩

/-- C9: for positive source dimensions and any asset type of the table, the
maintain-aspect branch computes scaled dimensions no larger than the target
and nonnegative centering offsets, so the paste stays inside the canvas
without cropping. -/
theorem letterbox_fits_C9 (sw sh tw th : Nat) (t : String)
    (hlook : DIMENSIONS.lookup t = some (tw, th)) (_hsw : 0 < sw) (_hsh : 0 < sh) :
    (scaledDims sw sh tw th).1 ≤ tw ∧ (scaledDims sw sh tw th).2 ≤ th
    ∧ 0 ≤ (pasteOffsets tw th (scaledDims sw sh tw th).1 (scaledDims sw sh tw th).2).1
    ∧ 0 ≤ (pasteOffsets tw th (scaledDims sw sh tw th).1 (scaledDims sw sh tw th).2).2
    ∧ (pasteOffsets tw th (scaledDims sw sh tw th).1 (scaledDims sw sh tw th).2).1
        + ((scaledDims sw sh tw th).1 : ℤ) ≤ (tw:ℤ)
    ∧ (pasteOffsets tw th (scaledDims sw sh tw th).1 (scaledDims sw sh tw th).2).2
        + ((scaledDims sw sh tw th).2 : ℤ) ≤ (th:ℤ) := by
  have hpos := lookup_pos hlook
  obtain ⟨hle1, hle2⟩ := scaledDims_le sw sh tw th hpos.1 hpos.2
  obtain ⟨o1, o2, o3, o4⟩ := pasteOffsets_bounds hle1 hle2
  exact ⟨hle1, hle2, o1, o2, o3, o4⟩

/-- C9 witness: a 1920 by 1080 source targeting caratula. -/
theorem letterbox_fits_C9_witness :
    (scaledDims 1920 1080 140 200).1 ≤ 140 ∧ (scaledDims 1920 1080 140 200).2 ≤ 200
    ∧ 0 ≤ (pasteOffsets 140 200 (scaledDims 1920 1080 140 200).1
        (scaledDims 1920 1080 140 200).2).1
    ∧ 0 ≤ (pasteOffsets 140 200 (scaledDims 1920 1080 140 200).1
        (scaledDims 1920 1080 140 200).2).2
    ∧ (pasteOffsets 140 200 (scaledDims 1920 1080 140 200).1
        (scaledDims 1920 1080 140 200).2).1 + ((scaledDims 1920 1080 140 200).1 : ℤ)
        ≤ (140:ℤ)
    ∧ (pasteOffsets 140 200 (scaledDims 1920 1080 140 200).1
        (scaledDims 1920 1080 140 200).2).2 + ((scaledDims 1920 1080 140 200).2 : ℤ)
        ≤ (200:ℤ) :=
  letterbox_fits_C9 1920 1080 140 200 "caratula" (by decide) (by decide) (by decide)

end OPLConverter

namespace OPLConverter

lemma scaledDims_1920 : scaledDims 1920 1080 140 200 = (140, 78) := by
  have hbr : (((140:ℕ):ℚ)/((200:ℕ):ℚ)) < (((1920:ℕ):ℚ)/((1080:ℕ):ℚ)) := by
    norm_num
  have hfl : ⌊((140:ℕ):ℚ) / ((((1920:ℕ)):ℚ)/(((1080:ℕ)):ℚ))⌋ = (78:ℤ) := by
    rw [Int.floor_eq_iff]; norm_num
  simp only [scaledDims, gt_iff_lt, if_pos hbr, hfl]
  rfl

/-- C2 counterexample: the source computes the scaled height with int()
truncation, not round(): for a 1920 by 1080 source and the 140 by 200
caratula target it produces new_height 78 at top offset 61, not the claimed
79 at top offset 60. -/
theorem round_formula_false_C2_cex :
    scaledDims 1920 1080 140 200 = (140, 78)
    ∧ scaledDims 1920 1080 140 200 ≠ (140, 79)
    ∧ pasteOffsets 140 200 140 (scaledDims 1920 1080 140 200).2 = (0, 61)
    ∧ (pasteOffsets 140 200 140 (scaledDims 1920 1080 140 200).2).2 ≠ 60 := by
  refine ⟨scaledDims_1920, ?_, ?_, ?_⟩
  · rw [scaledDims_1920]
    decide
  · rw [scaledDims_1920]
    decide
  · rw [scaledDims_1920]
    decide

/-- C2 amended: when maintain_aspect is true the scaled dimensions are
computed with int() truncation, not round(): if source_ratio exceeds
target_ratio then new_width = tw and new_height = int(tw / source_ratio)
= tw * sh / sw, else new_height = th and new_width = int(th * source_ratio)
= th * sw / sh; for a 1920 by 1080 source and the 140 by 200 target this
gives new_width 140, new_height 78, placed at left 0, top 61. -/
theorem scaled_trunc_C2 (sw sh tw th : Nat) (_hsh : 0 < sh) (hth : 0 < th) :
    ((((tw:ℚ)/(th:ℚ)) < ((sw:ℚ)/(sh:ℚ))) →
      scaledDims sw sh tw th = (tw, tw * sh / sw))
    ∧ ((((sw:ℚ)/(sh:ℚ)) ≤ ((tw:ℚ)/(th:ℚ))) →
      scaledDims sw sh tw th = (th * sw / sh, th))
    ∧ scaledDims 1920 1080 140 200 = (140, 78)
    ∧ pasteOffsets 140 200 140 78 = (0, 61) := by
  refine ⟨?_, ?_, scaledDims_1920, by decide⟩
  · intro hwide
    have hq : (0:ℚ) ≤ (tw:ℚ)/(th:ℚ) := by positivity
    have ha : (0:ℚ) < (sw:ℚ)/(sh:ℚ) := lt_of_le_of_lt hq hwide
    have hdd : (tw:ℚ) / ((sw:ℚ)/(sh:ℚ)) = ((tw * sh : ℕ):ℚ) / ((sw:ℕ):ℚ) := by
      push_cast
      rw [div_div_eq_mul_div]
    have hfl : ⌊(tw:ℚ) / ((sw:ℚ)/(sh:ℚ))⌋ = ((tw * sh / sw : ℕ) : ℤ) := by
      rw [hdd, Rat.floor_natCast_div_natCast]
      exact (Int.ofNat_tdiv _ _).symm
    simp only [scaledDims, gt_iff_lt, if_pos hwide, hfl, Int.toNat_natCast]
  · intro hle
    have hcond : ¬(((tw:ℚ)/(th:ℚ)) < ((sw:ℚ)/(sh:ℚ))) := not_lt.mpr hle
    have hdd : (th:ℚ) * ((sw:ℚ)/(sh:ℚ)) = ((th * sw : ℕ):ℚ) / ((sh:ℕ):ℚ) := by
      push_cast
      rw [mul_div_assoc]
    have hfl : ⌊(th:ℚ) * ((sw:ℚ)/(sh:ℚ))⌋ = ((th * sw / sh : ℕ) : ℤ) := by
      rw [hdd, Rat.floor_natCast_div_natCast]
      exact (Int.ofNat_tdiv _ _).symm
    simp only [scaledDims, gt_iff_lt, if_neg hcond, hfl, Int.toNat_natCast]

/-- C2 amended witness: concrete instances of both branch formulas. -/
theorem scaled_trunc_C2_witness :
    scaledDims 1920 1080 140 200 = (140, 140 * 1080 / 1920)
    ∧ scaledDims 100 200 140 200 = (200 * 100 / 200, 200)
    ∧ scaledDims 1920 1080 140 200 = (140, 78)
    ∧ pasteOffsets 140 200 140 78 = (0, 61) :=
  ⟨(scaled_trunc_C2 1920 1080 140 200 (by decide) (by decide)).1 (by norm_num),
   (scaled_trunc_C2 100 200 140 200 (by decide) (by decide)).2.1 (by norm_num),
   (scaled_trunc_C2 1920 1080 140 200 (by decide) (by decide)).2.2.1,
   (scaled_trunc_C2 1920 1080 140 200 (by decide) (by decide)).2.2.2⟩

lemma mode_ite_width (img0 : Img) :
    (if img0.mode ≠ "RGB" then img0.convertRGB else img0).width = img0.width := by
  split <;> rfl

lemma mode_ite_height (img0 : Img) :
    (if img0.mode ≠ "RGB" then img0.convertRGB else img0).height = img0.height := by
  split <;> rfl

/-- C4: with maintain_aspect true, a written output is a canvas of exactly
the target size whose every pixel outside the centered scaled region
[left, left+new_width) by [top, top+new_height) is exactly black (0,0,0);
the offsets are the floor-division centering offsets. -/
theorem letterbox_padding_black_C4 (resample : Resampler) (img0 : Img)
    (writeErr : Option String) (out_path t : String) (tw th : Nat)
    (hlook : DIMENSIONS.lookup t = some (tw, th)) (out : Img)
    (hout : (convert_resize_image resample (Except.ok img0) writeErr out_path t true).2
        = some out) :
    out.width = tw ∧ out.height = th ∧
    ∀ x y : Nat,
      ¬((pasteOffsets tw th (scaledDims img0.width img0.height tw th).1
            (scaledDims img0.width img0.height tw th).2).1 ≤ (x:ℤ)
        ∧ (x:ℤ) < (pasteOffsets tw th (scaledDims img0.width img0.height tw th).1
            (scaledDims img0.width img0.height tw th).2).1
            + ((scaledDims img0.width img0.height tw th).1 : ℤ)
        ∧ (pasteOffsets tw th (scaledDims img0.width img0.height tw th).1
            (scaledDims img0.width img0.height tw th).2).2 ≤ (y:ℤ)
        ∧ (y:ℤ) < (pasteOffsets tw th (scaledDims img0.width img0.height tw th).1
            (scaledDims img0.width img0.height tw th).2).2
            + ((scaledDims img0.width img0.height tw th).2 : ℤ)) →
      out.pixel x y = (0, 0, 0) := by
  have hd := dimsGet_eq_of_lookup hlook
  have hpos := lookup_pos hlook
  simp only [convert_resize_image, hd] at hout
  rw [if_neg (by omega : ¬(tw = 0 ∨ th = 0)), if_pos trivial] at hout
  by_cases hm : img0.mode ≠ "RGB"
  · rw [if_pos hm] at hout
    split_ifs at hout with hh
    cases writeErr with
    | some e => exact absurd hout (by simp)
    | none =>
      obtain rfl : _ = out := Option.some_injective _ hout
      refine ⟨rfl, rfl, ?_⟩
      intro x y hnot
      simp only [Img.paste, Img.resize, Img.newRGB, Img.convertRGB]
      rw [if_neg]
      simpa [Img.convertRGB] using hnot
  · rw [if_neg hm] at hout
    split_ifs at hout with hh
    cases writeErr with
    | some e => exact absurd hout (by simp)
    | none =>
      obtain rfl : _ = out := Option.some_injective _ hout
      refine ⟨rfl, rfl, ?_⟩
      intro x y hnot
      simp only [Img.paste, Img.resize, Img.newRGB]
      rw [if_neg]
      simpa using hnot

lemma scaledDims_1_1 : scaledDims 1 1 140 200 = (140, 140) := by
  have hbr : (((140:ℕ):ℚ)/((200:ℕ):ℚ)) < (((1:ℕ):ℚ)/((1:ℕ):ℚ)) := by norm_num
  have hv : ((140:ℕ):ℚ) / ((((1:ℕ)):ℚ)/(((1:ℕ)):ℚ)) = (((140:ℕ):ℤ):ℚ) := by norm_num
  simp only [scaledDims, gt_iff_lt, if_pos hbr, hv, Int.floor_intCast]
  rfl

lemma convert_img1_eval :
    (convert_resize_image rs0 (Except.ok img1) none "o.png" "caratula" true).2
      = some ((Img.newRGB 140 200 (0, 0, 0)).paste (img1.resize rs0 140 140) 0 30) := by
  have hd : dimsGet "caratula" = (140, 200) := by decide
  simp only [convert_resize_image, hd]
  rw [if_neg (by decide : ¬((140:ℕ) = 0 ∨ (200:ℕ) = 0))]
  have hmode : (if img1.mode ≠ "RGB" then img1.convertRGB else img1) = img1 := by
    rw [if_neg (by decide)]
  simp only [hmode, if_true]
  rw [if_neg (by decide : ¬img1.height = 0)]
  have h11 : scaledDims img1.width img1.height 140 200 = (140, 140) := scaledDims_1_1
  simp only [h11]
  have hoff : pasteOffsets 140 200 140 140 = (0, 30) := by decide
  simp only [hoff]

/-- C4 witness: a concrete letterboxed conversion whose padding pixels are
black. -/
theorem letterbox_padding_black_C4_witness :
    ((Img.newRGB 140 200 (0, 0, 0)).paste (img1.resize rs0 140 140) 0 30).width = 140
    ∧ ((Img.newRGB 140 200 (0, 0, 0)).paste (img1.resize rs0 140 140) 0 30).height = 200
    ∧ ∀ x y : Nat,
      ¬((pasteOffsets 140 200 (scaledDims img1.width img1.height 140 200).1
            (scaledDims img1.width img1.height 140 200).2).1 ≤ (x:ℤ)
        ∧ (x:ℤ) < (pasteOffsets 140 200 (scaledDims img1.width img1.height 140 200).1
            (scaledDims img1.width img1.height 140 200).2).1
            + ((scaledDims img1.width img1.height 140 200).1 : ℤ)
        ∧ (pasteOffsets 140 200 (scaledDims img1.width img1.height 140 200).1
            (scaledDims img1.width img1.height 140 200).2).2 ≤ (y:ℤ)
        ∧ (y:ℤ) < (pasteOffsets 140 200 (scaledDims img1.width img1.height 140 200).1
            (scaledDims img1.width img1.height 140 200).2).2
            + ((scaledDims img1.width img1.height 140 200).2 : ℤ)) →
      ((Img.newRGB 140 200 (0, 0, 0)).paste (img1.resize rs0 140 140) 0 30).pixel x y
        = (0, 0, 0) :=
  letterbox_padding_black_C4 rs0 img1 none "o.png" "caratula" 140 200 (by decide)
    ((Img.newRGB 140 200 (0, 0, 0)).paste (img1.resize rs0 140 140) 0 30)
    convert_img1_eval

end OPLConverter
